import Mathlib

/-!
Verification development for the GlobeNewsWire lambda (src/lambda.py).

The file shallowly embeds the core of the program:
* `Entry.getTicker` — the windowed bracket/colon ticker-extraction
  heuristic, modelled on `List Char` with Python string semantics
  (negative indexing raising IndexError, `str.partition`, `str.strip`,
  the regex first-run search, `str.isalpha`);
* `Entry.makeRequest` — the tenacity-decorated fetch, modelled as a
  bounded retry loop over a schedule of per-attempt request outcomes,
  with the real exception classification of the source
  (`MissingSchema`/`InvalidSchema` raise `InvalidArticleLink`,
  `ProxyError` is swallowed by its handler, other request exceptions
  re-raise, any other exception is swallowed);
* the `Proxies` pool — `getProxiesDefault`, `refreshProxies` and
  `getNextProxy`, with the proxy-list source given as an explicit
  parameter and a ghost counter recording refreshes.
-/

namespace GNW

/-! ## Python string primitives on `List Char` -/

/-- Index of the first occurrence of `sep` in `s` (Python `str.find`
with a non-empty needle; `none` when absent, which is also Python's
`sep in s == False`). -/
def firstOcc (sep : List Char) : List Char → Option Nat
  | [] => if sep.isPrefixOf ([] : List Char) then some 0 else none
  | c :: t =>
    if sep.isPrefixOf (c :: t) then some 0
    else (firstOcc sep t).map (· + 1)

/-- Python `sep in s` for strings. -/
def pyContains (s sep : List Char) : Bool := (firstOcc sep s).isSome

/-- Python `s.partition(sep)`, keeping only the head and tail pieces
(the middle piece is `sep` itself when found, `''` otherwise). -/
def pyPartition (s sep : List Char) : List Char × List Char :=
  match firstOcc sep s with
  | some i => (s.take i, s.drop (i + sep.length))
  | none => (s, [])

/-- Whitespace as stripped by Python `str.strip` and matched by `\s`. -/
def isPySpace (c : Char) : Bool := c.isWhitespace

/-- Python `s.strip()`. -/
def pyStrip (l : List Char) : List Char :=
  ((l.dropWhile isPySpace).reverse.dropWhile isPySpace).reverse

/-- Python `s.isalpha()`: non-empty and every character alphabetic. -/
def pyIsAlpha (l : List Char) : Bool := !l.isEmpty && l.all Char.isAlpha

/-! ## The ticker heuristic (`Entry.getTicker`) -/

/-- Characters excluded from a ticker run: the regex `[^;)\s]`
complement set of `lambda.py` line 291. -/
def badSymChar (c : Char) : Bool := c = ';' || c = ')' || isPySpace c

/-- `re.search('[^;)\s]+', s)`: the first maximal run of characters
outside `;`, `)` and whitespace; `none` when no match (in the source
this makes `.group(0)` raise AttributeError). -/
def firstRun (l : List Char) : Option (List Char) :=
  if ((l.dropWhile badSymChar).takeWhile (fun c => !badSymChar c)).isEmpty then none
  else some ((l.dropWhile badSymChar).takeWhile (fun c => !badSymChar c))

/-- The backward bracket scan of `lambda.py` lines 270-276:
`for i in range(-1, -35, -1)` over `before[i]`.  `some true` when `(`
is hit first, `some false` when `)` is hit first or the 34-character
window is exhausted, `none` when the index runs off the front of the
string (Python IndexError). -/
def scanBack (l : List Char) : Nat → Nat → Option Bool
  | _, 0 => some false
  | k, fuel + 1 =>
    if l.length < k then none
    else
      match l.get? (l.length - k) with
      | some '(' => some true
      | some ')' => some false
      | _ => scanBack l (k + 1) fuel

/-- Backward scan entry point: 34 iterations starting at `before[-1]`. -/
def bscan (l : List Char) : Option Bool := scanBack l 1 34

/-- The forward bracket scan of `lambda.py` lines 278-284:
`for i in range(35)` over `after[i]`.  `some true` when `)` is hit
first, `some false` when `(` is hit first or the window is exhausted,
`none` on index run-off. -/
def scanFwd (l : List Char) : Nat → Nat → Option Bool
  | _, 0 => some false
  | i, fuel + 1 =>
    match l.get? i with
    | none => none
    | some ')' => some true
    | some '(' => some false
    | some _ => scanFwd l (i + 1) fuel

/-- Forward scan entry point: 35 iterations starting at `after[0]`. -/
def fscan (l : List Char) : Option Bool := scanFwd l 0 35

/-- The colon scan of `lambda.py` lines 287-288: `for i in range(30)`
looking for `:` in `after`.  `some true` when found, `some false` when
the 30-character window is exhausted, `none` on index run-off. -/
def scanColon (l : List Char) : Nat → Nat → Option Bool
  | _, 0 => some false
  | i, fuel + 1 =>
    match l.get? i with
    | none => none
    | some ':' => some true
    | some _ => scanColon l (i + 1) fuel

/-- Colon scan entry point. -/
def cscan (l : List Char) : Option Bool := scanColon l 0 30

/-- Outcome of processing one exchange label inside the loop body of
`Entry.getTicker`: a `return` (with the returned value), a raised
IndexError, a raised AttributeError (failed regex match), or falling
through to the next label. -/
inductive Step where
  | ret (v : Option (List Char))
  | raiseIdx
  | raiseAttr
  | next
deriving DecidableEq

/-- The colon separator. -/
def colonSep : List Char := [':']

/-- The loop body of `Entry.getTicker` for one exchange label `e`
already known to occur in `article`. -/
def processExchange (article e : List Char) : Step :=
  match bscan (pyPartition article e).1, fscan (pyPartition article e).2 with
  | none, _ => .raiseIdx
  | some _, none => .raiseIdx
  | some fo, some fc =>
    if fo && fc then
      match cscan (pyPartition article e).2 with
      | none => .raiseIdx
      | some false => .next
      | some true =>
        match firstRun ((pyStrip (pyPartition (pyPartition article e).2 colonSep).2).take 5) with
        | none => .raiseAttr
        | some symbol => if pyIsAlpha symbol then .ret (some symbol) else .ret none
    else .next

/-- Result of `Entry.getTicker`: a normal return carrying the optional
ticker, the raised `InvalidArticleText`, or a propagated
AttributeError (the uncaught `.group(0)`-on-`None` failure). -/
inductive TickerResult where
  | ok (t : Option (List Char))
  | invalidArticleText
  | attributeError
deriving DecidableEq

/-- The `for exchange in self.exchanges` loop of `Entry.getTicker`.
An IndexError anywhere is caught by the handler *outside* the loop,
which prints and lets the method fall off the end, returning `None`. -/
def getTickerLoop (article : List Char) : List (List Char) → TickerResult
  | [] => .ok none
  | e :: rest =>
    if pyContains article e then
      match processExchange article e with
      | .ret v => .ok v
      | .raiseIdx => .ok none
      | .raiseAttr => .attributeError
      | .next => getTickerLoop article rest
    else getTickerLoop article rest

/-- `Entry.exchanges` (lambda.py lines 171-172), in source order. -/
def exchanges : List (List Char) :=
  ["Nasdaq".toList, "NASDAQ".toList, "NYSE".toList, "OTC".toList,
   "Symbol".toList, "OTCQB".toList, "OTCPK".toList, "OTCBB".toList,
   "OTC Pink".toList, "OTC.PK".toList, "OTC PINK".toList,
   "OTCMKTS".toList, "OTCQX".toList, "OTC BB".toList,
   "OTC Markets".toList]

/-- `Entry.getTicker`.  The input is `none` when `self.article` is not
a string (Python `None`), in which case `exchange in self.article`
raises TypeError, caught and re-raised as `InvalidArticleText`. -/
def getTicker (input : Option (List Char)) : TickerResult :=
  match input with
  | none => .invalidArticleText
  | some article => getTickerLoop article exchanges

end GNW

section TickerSanity

open GNW

example : getTicker (some ("xx (NYSE: ABC) trailing text".toList)) =
    .ok (some ("ABC".toList)) := by decide

example : getTicker (some ("no exchange label here".toList)) = .ok none := by
  decide

example : getTicker none = .invalidArticleText := by decide

example : getTicker (some ("Nasdaq x".toList)) = .ok none := by decide

end TickerSanity

namespace GNW

/-! ## Helper lemmas about the ticker loop -/

/-- When `e` is the first exchange label occurring in `a` and its
processing returns, the whole loop returns that value. -/
theorem getTickerLoop_find (a e : List Char) (es : List (List Char))
    (v : Option (List Char))
    (hfind : es.find? (fun x => pyContains a x) = some e)
    (hproc : processExchange a e = .ret v) :
    getTickerLoop a es = .ok v := by
  induction es with
  | nil => simp at hfind
  | cons x t ih =>
    by_cases hx : pyContains a x
    · rw [List.find?_cons_of_pos _ hx] at hfind
      obtain rfl : x = e := by simpa using hfind
      simp [getTickerLoop, hx, hproc]
    · rw [List.find?_cons_of_neg _ (by simpa using hx)] at hfind
      simp [getTickerLoop, hx, ih hfind]

/-- The loop never produces `invalidArticleText`: TypeError can only
come from the `in` test on a non-string article. -/
theorem getTickerLoop_ne_invalid (es : List (List Char)) (a : List Char) :
    getTickerLoop a es ≠ .invalidArticleText := by
  induction es with
  | nil => simp [getTickerLoop]
  | cons e t ih =>
    by_cases he : pyContains a e
    · simp only [getTickerLoop, he, if_true]
      cases processExchange a e <;> simp [ih]
    · simpa [getTickerLoop, he] using ih

/-- A successful regex first-run match is no longer than its input. -/
theorem firstRun_length_le (s r : List Char) (h : firstRun s = some r) :
    r.length ≤ s.length := by
  unfold firstRun at h
  split at h
  · exact absurd h (by simp)
  · obtain rfl : (s.dropWhile badSymChar).takeWhile (fun c => !badSymChar c) = r := by
      simpa using h
    exact le_trans (List.takeWhile_sublist _).length_le
      (List.dropWhile_sublist _).length_le

/-- The only way the loop body returns a symbol is through the
`isalpha` guard, on a symbol cut from a 5-character-truncated string. -/
theorem processExchange_ret_some (a e t : List Char)
    (h : processExchange a e = .ret (some t)) :
    pyIsAlpha t = true ∧ t.length ≤ 5 := by
  unfold processExchange at h
  split at h
  · simp at h
  · simp at h
  · split at h
    · split at h
      · simp at h
      · simp at h
      · split at h
        · simp at h
        · rename_i symbol hr
          split at h
          · rename_i hα
            obtain rfl : symbol = t := by simpa using h
            refine ⟨hα, (firstRun_length_le _ _ hr).trans ?_⟩
            rw [List.length_take]
            exact min_le_left _ _
          · simp at h
    · simp at h

/-- `pyIsAlpha` unpacked. -/
theorem pyIsAlpha_spec (t : List Char) (h : pyIsAlpha t = true) :
    t ≠ [] ∧ t.all Char.isAlpha = true := by
  cases t with
  | nil => simp [pyIsAlpha] at h
  | cons c r =>
    refine ⟨by simp, ?_⟩
    simpa [pyIsAlpha] using h

/-- Any `.ok (some t)` out of the loop went through the `isalpha`
guard on a symbol of length at most 5. -/
theorem getTickerLoop_ok_some (es : List (List Char)) (a t : List Char)
    (h : getTickerLoop a es = .ok (some t)) :
    pyIsAlpha t = true ∧ t.length ≤ 5 := by
  induction es with
  | nil => simp [getTickerLoop] at h
  | cons e rest ih =>
    by_cases he : pyContains a e
    · simp only [getTickerLoop, he, if_true] at h
      split at h
      · rename_i v hv
        obtain rfl : v = some t := by simpa using h
        exact processExchange_ret_some a e t hv
      · simp at h
      · simp at h
      · exact ih h
    · simp only [getTickerLoop] at h
      rw [if_neg he] at h
      exact ih h

/-! ## Ticker claims -/

/-- Concrete article for the C4 witness. -/
def art4 : List Char := "xx (NYSE: ABC) trailing text".toList

/-- Concrete article whose first found label triggers an index
run-off (the label starts the text, so there is no character at
index -1 of the preceding text). -/
def artIdx : List Char := "Nasdaq x".toList

/-- Concrete article whose first found label ("Nasdaq") has `)`
nearer than `(` in the backward window, while a later label ("NYSE")
carries a well-formed ticker pattern. -/
def art6 : List Char := "a) Nasdaq xx (NYSE: ABC) qq".toList

/-- Concrete article for the C10 witness. -/
def art10 : List Char := "zz (NYSE: QQQ) more text here".toList

/-- Claim C4: for a body text whose first exchange label (in priority
order) is found with an open bracket nearest in the 34-character
backward window, a close bracket nearest in the 35-character forward
window, and a colon within 30 characters, `getTicker` returns the
whitespace-stripped, 5-truncated first run after the colon when it is
alphabetic-only, and `None` (absent) when it is not. -/
theorem c4_theorem (a e sym : List Char)
    (hfind : exchanges.find? (fun x => pyContains a x) = some e)
    (hopen : bscan (pyPartition a e).1 = some true)
    (hclose : fscan (pyPartition a e).2 = some true)
    (hcolon : cscan (pyPartition a e).2 = some true)
    (hsym : firstRun ((pyStrip (pyPartition (pyPartition a e).2 colonSep).2).take 5)
      = some sym) :
    getTicker (some a) = if pyIsAlpha sym then .ok (some sym) else .ok none := by
  have hproc : processExchange a e = .ret (if pyIsAlpha sym then some sym else none) := by
    simp only [processExchange, hopen, hclose, hcolon, hsym, Bool.and_self, if_true]
    by_cases hα : pyIsAlpha sym = true <;> simp [hα]
  have hloop := getTickerLoop_find a e exchanges _ hfind hproc
  show getTickerLoop a exchanges = _
  rw [hloop]
  by_cases hα : pyIsAlpha sym = true <;> simp [hα]

/-- Witness for C4 at a concrete article: the 3-letter alphabetic
symbol after the colon is returned. -/
theorem c4_witness : getTicker (some art4) = .ok (some ("ABC".toList)) := by
  rw [c4_theorem art4 ("NYSE".toList) ("ABC".toList)
    (by decide) (by decide) (by decide) (by decide) (by decide)]
  decide

/-- Claim C5: `getTicker` fails with `InvalidArticleText` exactly when
its input is not a string, and an index run-off in the bracket-window
scans of a label reached by the loop yields the absent result (the
IndexError is caught outside the loop and the method returns `None`),
never a raised error. -/
theorem c5_theorem :
    (∀ v, getTicker v = .invalidArticleText ↔ v = none) ∧
    (∀ (a e : List Char) (es : List (List Char)),
      pyContains a e = true → processExchange a e = .raiseIdx →
      getTickerLoop a (e :: es) = .ok none) := by
  constructor
  · intro v
    constructor
    · intro h
      cases v with
      | none => rfl
      | some a => exact absurd h (getTickerLoop_ne_invalid exchanges a)
    · rintro rfl
      rfl
  · intro a e es h1 h2
    simp [getTickerLoop, h1, h2]

/-- Witness for C5: a `None` article raises `InvalidArticleText`, and
an article beginning with its exchange label (backward window runs
off) gives the absent result. -/
theorem c5_witness :
    getTicker none = .invalidArticleText ∧
    getTickerLoop artIdx (("Nasdaq".toList) :: [("NYSE".toList)]) = .ok none :=
  ⟨(c5_theorem.1 none).mpr rfl,
   c5_theorem.2 artIdx ("Nasdaq".toList) [("NYSE".toList)] (by decide) (by decide)⟩

/-- Counterexample to C6: in `art6` the first label found in priority
order is "Nasdaq", its backward window hits `)` before `(`
(the preceding text is "a) "), yet extraction does not return absent:
it falls through to the later label "NYSE" and returns "ABC". -/
theorem c6_counterexample :
    exchanges.find? (fun x => pyContains art6 x) = some ("Nasdaq".toList) ∧
    (pyPartition art6 ("Nasdaq".toList)).1 = "a) ".toList ∧
    bscan (pyPartition art6 ("Nasdaq".toList)).1 = some false ∧
    getTicker (some art6) = .ok (some ("ABC".toList)) := by decide

/-- Claim C6 as amended: when a label occurring in the text resolves
its backward scan to "no open bracket" (`)` first, or window
exhausted) and the forward scan completes without an index run-off,
that label is skipped and the loop continues with the remaining
exchange labels in priority order. -/
theorem c6_theorem (a e : List Char) (es : List (List Char))
    (hin : pyContains a e = true)
    (hback : bscan (pyPartition a e).1 = some false)
    (hfwd : (fscan (pyPartition a e).2).isSome = true) :
    getTickerLoop a (e :: es) = getTickerLoop a es := by
  obtain ⟨fc, hfc⟩ := Option.isSome_iff_exists.mp hfwd
  have hproc : processExchange a e = .next := by
    simp [processExchange, hback, hfc]
  simp [getTickerLoop, hin, hproc]

/-- Witness for the amended C6 at the concrete article `art6`. -/
theorem c6_witness :
    getTickerLoop art6 (("Nasdaq".toList) :: [("NYSE".toList)]) =
      getTickerLoop art6 [("NYSE".toList)] :=
  c6_theorem art6 ("Nasdaq".toList) [("NYSE".toList)]
    (by decide) (by decide) (by decide)

/-- Claim C10: every non-absent ticker returned by `getTicker` on a
string input is non-empty, at most 5 characters long, and consists of
alphabetic characters only. -/
theorem c10_theorem (a t : List Char) (h : getTicker (some a) = .ok (some t)) :
    t ≠ [] ∧ t.length ≤ 5 ∧ t.all Char.isAlpha = true := by
  obtain ⟨hα, hlen⟩ := getTickerLoop_ok_some exchanges a t h
  obtain ⟨hne, hall⟩ := pyIsAlpha_spec t hα
  exact ⟨hne, hlen, hall⟩

/-- Witness for C10 at a concrete article returning "QQQ". -/
theorem c10_witness :
    ("QQQ".toList ≠ ([] : List Char)) ∧
    ("QQQ".toList).length ≤ 5 ∧ ("QQQ".toList).all Char.isAlpha = true :=
  c10_theorem art10 ("QQQ".toList) (by decide)

/-! ## The fetch with retry (`Entry.makeRequest`)

`makeRequest` is decorated `@retry(stop=stop_after_attempt(6),
wait=wait_fixed(10))`.  Tenacity with this configuration retries on
*any* raised exception (its default retry predicate is
`retry_if_exception_type(Exception)`) and, once 6 attempts have been
made, raises `RetryError` wrapping the last attempt's exception
(`reraise` is left at its default `False`).  A normal return — even
the implicit `None` from the exception handlers that do not re-raise —
ends the retrying immediately.

The network environment is a schedule assigning to each attempt index
the outcome of the `requests.get` call inside the try block. -/

/-- Outcome of the `requests.get` call on one attempt. -/
inductive ReqOutcome where
  | success
  | missingSchema
  | invalidSchema
  | proxyError
  | requestException
  | otherException
deriving DecidableEq

/-- The exceptions that can escape the undecorated body. -/
inductive PyExc where
  | invalidArticleLink
  | requestException
deriving DecidableEq

/-- Per-entry mutable state touched by `makeRequest`:
`self.proxyErrorCounter`, plus a ghost count of
`self.proxies.refreshProxies()` calls made by the ProxyError
handler. -/
structure EntryState where
  proxyErrorCounter : Nat
  refreshCalls : Nat
deriving DecidableEq

/-- Result of one execution of the try/except body of `makeRequest`:
a normal return (`true` when the else-branch returned the parsed
page, `false` for the implicit `None` of the swallowing handlers), or
a raised exception. -/
inductive BodyRes where
  | returned (gotContent : Bool)
  | raised (e : PyExc)
deriving DecidableEq

/-- One execution of the body of `makeRequest` (lambda.py 219-240):
MissingSchema/InvalidSchema raise `InvalidArticleLink`; ProxyError is
caught, bumps the counter, refreshes the pool on reaching 4 and
resets the counter, then falls off the function (returning `None`);
any other `RequestException` is re-raised; any other exception is
swallowed (returning `None`); otherwise the page is parsed and
returned. -/
def makeRequestBody (o : ReqOutcome) (st : EntryState) : BodyRes × EntryState :=
  match o with
  | .success => (.returned true, st)
  | .missingSchema => (.raised .invalidArticleLink, st)
  | .invalidSchema => (.raised .invalidArticleLink, st)
  | .proxyError =>
    if st.proxyErrorCounter + 1 ≥ 4 then
      (.returned false, ⟨0, st.refreshCalls + 1⟩)
    else
      (.returned false, ⟨st.proxyErrorCounter + 1, st.refreshCalls⟩)
  | .requestException => (.raised .requestException, st)
  | .otherException => (.returned false, st)

/-- Result of the decorated `makeRequest`: a normal return or the
`RetryError` tenacity raises after the attempt budget is spent,
wrapping the last attempt's exception. -/
inductive MRRes where
  | ok (gotContent : Bool)
  | retryError (e : PyExc)
deriving DecidableEq

/-- The tenacity retry loop: `k` is the index of the current attempt,
`fuel` the number of attempts still allowed (6 at the top call).  The
third component of the result is the total number of attempts
performed. -/
def retryGo (sched : Nat → ReqOutcome) : Nat → Nat → EntryState →
    MRRes × EntryState × Nat
  | k, 0, st => (.retryError .requestException, st, k)
  | k, fuel + 1, st =>
    match makeRequestBody (sched k) st with
    | (.returned v, st1) => (.ok v, st1, k + 1)
    | (.raised e, st1) =>
      match fuel with
      | 0 => (.retryError e, st1, k + 1)
      | _ + 1 => retryGo sched (k + 1) fuel st1

/-- `Entry.makeRequest` under `@retry(stop=stop_after_attempt(6),
wait=wait_fixed(10))`. -/
def makeRequest (sched : Nat → ReqOutcome) (st : EntryState) :
    MRRes × EntryState × Nat :=
  retryGo sched 0 6 st

/-- Schema errors produce the same raised exception. -/
theorem makeRequestBody_schema (o : ReqOutcome) (st : EntryState)
    (h : o = .missingSchema ∨ o = .invalidSchema) :
    makeRequestBody o st = (.raised .invalidArticleLink, st) := by
  rcases h with rfl | rfl <;> rfl

/-- Counterexample to C1: with a URL whose scheme is missing, every
attempt raises `InvalidArticleLink`, the tenacity decorator retries
it like any other exception, and the fetch performs 6 attempts — not
1 — before failing with `RetryError(InvalidArticleLink)`. -/
theorem c1_counterexample :
    makeRequest (fun _ => .missingSchema) ⟨0, 0⟩ =
      (.retryError .invalidArticleLink, ⟨0, 0⟩, 6) ∧
    (makeRequest (fun _ => .missingSchema) ⟨0, 0⟩).2.2 ≠ 1 := by
  constructor
  · rfl
  · decide

/-- Claim C1 as amended: for every fetch whose every attempt hits a
missing or unsupported URL scheme, each attempt raises
`InvalidArticleLink` without a network response, the decorator
retries it, and after exactly 6 attempts the fetch fails with
`RetryError` wrapping `InvalidArticleLink`; the proxy-error counter
and refresh count are untouched. -/
theorem c1_theorem (sched : Nat → ReqOutcome) (st : EntryState)
    (h : ∀ k, k < 6 → sched k = .missingSchema ∨ sched k = .invalidSchema) :
    makeRequest sched st = (.retryError .invalidArticleLink, st, 6) := by
  have e0 := makeRequestBody_schema (sched 0) st (h 0 (by omega))
  have e1 := makeRequestBody_schema (sched 1) st (h 1 (by omega))
  have e2 := makeRequestBody_schema (sched 2) st (h 2 (by omega))
  have e3 := makeRequestBody_schema (sched 3) st (h 3 (by omega))
  have e4 := makeRequestBody_schema (sched 4) st (h 4 (by omega))
  have e5 := makeRequestBody_schema (sched 5) st (h 5 (by omega))
  simp [makeRequest, retryGo, e0, e1, e2, e3, e4, e5]

/-- Witness for the amended C1 at the constant missing-schema
schedule. -/
theorem c1_witness :
    makeRequest (fun _ => .invalidSchema) ⟨2, 3⟩ =
      (.retryError .invalidArticleLink, ⟨2, 3⟩, 6) :=
  c1_theorem (fun _ => .invalidSchema) ⟨2, 3⟩ (fun _ _ => Or.inr rfl)

/-- C2 (code bug, demonstration): a proxy-class failure on the first
attempt is swallowed by its handler, so the decorated call returns
`None` after exactly one attempt — no retry, no delay — with the
proxy-error counter at 1 and `refreshProxies` never called.  The
counter is per-`Entry` and `makeRequest` runs once per entry, so it
can never reach the threshold of 4; the refresh-and-reset branch is
unreachable. -/
theorem c2_theorem :
    makeRequest (fun _ => .proxyError) ⟨0, 0⟩ = (.ok false, ⟨1, 0⟩, 1) := by
  rfl

/-- Claim C3: when every attempt raises a transient network failure
(a `RequestException` other than the schema and proxy cases), the
decorated call performs exactly 6 attempts and then fails with
`RetryError` wrapping the last error; it does not retry forever. -/
theorem c3_theorem (sched : Nat → ReqOutcome) (st : EntryState)
    (h : ∀ k, k < 6 → sched k = .requestException) :
    makeRequest sched st = (.retryError .requestException, st, 6) := by
  have e0 := h 0 (by omega)
  have e1 := h 1 (by omega)
  have e2 := h 2 (by omega)
  have e3 := h 3 (by omega)
  have e4 := h 4 (by omega)
  have e5 := h 5 (by omega)
  simp [makeRequest, retryGo, e0, e1, e2, e3, e4, e5, makeRequestBody]

/-- Witness for C3 at the constant transient-failure schedule. -/
theorem c3_witness :
    makeRequest (fun _ => .requestException) ⟨0, 0⟩ =
      (.retryError .requestException, ⟨0, 0⟩, 6) :=
  c3_theorem (fun _ => .requestException) ⟨0, 0⟩ (fun _ _ => rfl)

/-! ## The proxy pool (`Proxies`)

The external proxy-list page is modelled as an optional list of table
rows (already column-extracted; the HTML parsing is an excluded
collaborator): `none` means the request to the source raised, `some
rows` is the `findAll("tr")` result.  A ghost `refreshCount` records
completed `getProxiesDefault` refreshes. -/

/-- One table row of the proxy source: columns 0, 1 and 6. -/
structure Row where
  ip : String
  port : String
  protocol : String
deriving DecidableEq

/-- The parsing loop of `Proxies.getProxiesDefault` (lambda.py 46-59):
drop the header row, keep at most 299 rows, keep rows whose HTTPS
column is "yes", and record `ip:port`. -/
def buildProxyList (rows : List Row) : List String :=
  ((rows.drop 1).take 299).filterMap
    (fun r => if r.protocol = "yes" then some (r.ip ++ ":" ++ r.port) else none)

/-- The mutable state of a `Proxies` instance, plus a ghost count of
completed refreshes. -/
structure ProxiesState where
  proxyList : List String
  currentProxy : Option String
  refreshCount : Nat
deriving DecidableEq

/-- Exceptions escaping pool operations: a propagated requests error
from the proxy source, a list IndexError, a `list.index` ValueError. -/
inductive PoolErr where
  | sourceUnavailable
  | indexError
  | valueError
deriving DecidableEq

/-- `Proxies.getProxiesDefault`: on a reachable source, replaces
`self.proxyList` with the freshly parsed list; `self.currentProxy` is
not touched.  On an unreachable source the requests exception is
re-raised and no state is changed (the method mutates nothing before
the raise). -/
def getProxiesDefault (rows? : Option (List Row)) (st : ProxiesState) :
    Except PoolErr ProxiesState :=
  match rows? with
  | none => .error .sourceUnavailable
  | some rows =>
    .ok ⟨buildProxyList rows, st.currentProxy, st.refreshCount + 1⟩

/-- `Proxies.refreshProxies`: delegates to `getProxiesDefault` (the
cursor-resetting line is commented out in the source). -/
def refreshProxies (rows? : Option (List Row)) (st : ProxiesState) :
    Except PoolErr ProxiesState :=
  getProxiesDefault rows? st

/-- `Proxies.__init__`: empty list, no cursor, then an initial
refresh. -/
def initProxies (rows? : Option (List Row)) : Except PoolErr ProxiesState :=
  getProxiesDefault rows? ⟨[], none, 0⟩

/-- Python `list.index` (first occurrence; `none` models ValueError). -/
def pyIndex (a : String) : List String → Option Nat
  | [] => none
  | b :: t => if b = a then some 0 else (pyIndex a t).map (· + 1)

/-- `Proxies.getNextProxy` (lambda.py 71-85).  `fetch` is the source
contents used if the wrap-around refresh fires. -/
def getNextProxy (fetch : Option (List Row)) (st : ProxiesState) :
    Except PoolErr (String × ProxiesState) :=
  match st.currentProxy with
  | none =>
    match st.proxyList with
    | [] => .error .indexError
    | p :: _ => .ok (p, ⟨st.proxyList, some p, st.refreshCount⟩)
  | some cur =>
    match st.proxyList.getLast? with
    | none => .error .indexError
    | some last =>
      if cur ≠ last then
        match pyIndex cur st.proxyList with
        | none => .error .valueError
        | some i =>
          match st.proxyList.get? (i + 1) with
          | none => .error .indexError
          | some p => .ok (p, ⟨st.proxyList, some p, st.refreshCount⟩)
      else
        match getProxiesDefault fetch st with
        | .error e => .error e
        | .ok st1 =>
          match st1.proxyList with
          | [] => .error .indexError
          | p :: _ => .ok (p, ⟨st1.proxyList, some p, st1.refreshCount⟩)

/-- `k` sequential `getNextProxy` calls, collecting the returned
endpoints; stops at the first exception. -/
def nextCalls (fetch : Option (List Row)) :
    Nat → ProxiesState → Except PoolErr (List String × ProxiesState)
  | 0, st => .ok ([], st)
  | n + 1, st =>
    match getNextProxy fetch st with
    | .error e => .error e
    | .ok (p, st1) =>
      match nextCalls fetch n st1 with
      | .error e => .error e
      | .ok (ps, st2) => .ok (p :: ps, st2)

/-- Source rows yielding the single endpoint "b:2". -/
def rowsB : List Row := [⟨"h", "h", "h"⟩, ⟨"b", "2", "yes"⟩]

/-- Source rows with a duplicated endpoint "a:1". -/
def rowsDup : List Row := [⟨"h", "h", "h"⟩, ⟨"a", "1", "yes"⟩, ⟨"a", "1", "yes"⟩]

/-- Source rows none of which advertise HTTPS. -/
def rowsNo : List Row := [⟨"h", "h", "h"⟩, ⟨"a", "1", "no"⟩]

/-- Counterexample to C7: a successful refresh does NOT reset the
cursor to absent — `currentProxy` stays what it was (the resetting
line is commented out in the source). -/
theorem c7_counterexample :
    getProxiesDefault (some rowsB) ⟨["a:1"], some ("a:1"), 0⟩ =
      .ok ⟨["b:2"], some ("a:1"), 1⟩ ∧
    (some ("a:1") : Option String) ≠ none := by
  constructor
  · rfl
  · decide

/-- Claim C7 as amended: a successful `refreshProxies` entirely
replaces the endpoint sequence with the HTTPS-filtered endpoints of
the fetched rows (no merge with the prior sequence — the new list
depends only on the rows) and leaves the cursor unchanged (it is not
reset to absent); a refresh against an unreachable source fails with
the propagated source error, producing no new state. -/
theorem c7_theorem (rows : List Row) (st : ProxiesState) :
    refreshProxies (some rows) st =
      .ok ⟨buildProxyList rows, st.currentProxy, st.refreshCount + 1⟩ ∧
    (∀ p, p ∈ buildProxyList rows →
      ∃ r, r ∈ rows ∧ r.protocol = "yes" ∧ p = r.ip ++ ":" ++ r.port) ∧
    refreshProxies none st = .error .sourceUnavailable := by
  refine ⟨rfl, ?_, rfl⟩
  intro p hp
  unfold buildProxyList at hp
  rw [List.mem_filterMap] at hp
  obtain ⟨r, hr, hif⟩ := hp
  have hmem : r ∈ rows := List.mem_of_mem_drop (List.mem_of_mem_take hr)
  have hyes : r.protocol = "yes" ∧ p = r.ip ++ ":" ++ r.port := by
    split at hif
    · exact ⟨by assumption, by simpa using hif.symm⟩
    · simp at hif
  exact ⟨r, hmem, hyes.1, hyes.2⟩

/-- Witness for C7: applying the replacement-characterisation at
concrete rows and the endpoint it produced. -/
theorem c7_witness :
    ∃ r, r ∈ rowsB ∧ r.protocol = "yes" ∧ "b:2" = r.ip ++ ":" ++ r.port :=
  (c7_theorem rowsB ⟨[], none, 0⟩).2.1 ("b:2") (by decide)

/-- Counterexample to C9: a refresh whose filtered endpoint list is
empty still completes successfully, leaving an empty sequence; it
does not fail. -/
theorem c9_counterexample :
    getProxiesDefault (some rowsNo) ⟨["x:1"], some ("x:1"), 0⟩ =
      .ok ⟨[], some ("x:1"), 1⟩ := by
  rfl

/-- Claim C9 as amended: a refresh always succeeds on a reachable
source, even when the filtered sequence is empty (the non-emptiness
invariant does not hold); the emptiness instead surfaces in
`getNextProxy`, which fails with IndexError (the code's PoolExhausted)
both when an implicit wrap-around refresh yields an empty sequence and
when the pool is empty with no cursor. -/
theorem c9_theorem :
    (∀ (rows : List Row) (st : ProxiesState),
      getProxiesDefault (some rows) st =
        .ok ⟨buildProxyList rows, st.currentProxy, st.refreshCount + 1⟩) ∧
    (∀ (rows : List Row) (l : List String) (cur : String) (c : Nat),
      l.getLast? = some cur → buildProxyList rows = [] →
      getNextProxy (some rows) ⟨l, some cur, c⟩ = .error .indexError) ∧
    (∀ (fetch : Option (List Row)) (c : Nat),
      getNextProxy fetch ⟨[], none, c⟩ = .error .indexError) := by
  refine ⟨fun rows st => rfl, ?_, fun fetch c => rfl⟩
  intro rows l cur c hlast hempty
  simp [getNextProxy, hlast, getProxiesDefault, hempty]

/-- Witness for the amended C9: a wrap-around refresh to an
HTTPS-free source leaves the pool empty and `getNextProxy` raises
IndexError. -/
theorem c9_witness :
    getNextProxy (some rowsNo) ⟨["x:1"], some ("x:1"), 0⟩ = .error .indexError :=
  c9_theorem.2.1 rowsNo (["x:1"]) ("x:1") 0 (by decide) (by decide)

/-! ## Rotation lemmas for C8 -/

/-- Unfolding one successful `getNextProxy` step of `nextCalls`. -/
theorem nextCalls_cons (fetch : Option (List Row)) (n : Nat)
    (st : ProxiesState) (p : String) (st1 : ProxiesState)
    (h : getNextProxy fetch st = .ok (p, st1)) :
    nextCalls fetch (n + 1) st =
      (match nextCalls fetch n st1 with
       | .error e => .error e
       | .ok (ps, st2) => .ok (p :: ps, st2)) := by
  simp [nextCalls, h]

/-- A run of `n` successful calls followed by one more appends the
extra endpoint. -/
theorem nextCalls_snoc (fetch : Option (List Row)) (n : Nat) :
    ∀ (st st1 st2 : ProxiesState) (ps : List String) (p : String),
    nextCalls fetch n st = .ok (ps, st1) →
    getNextProxy fetch st1 = .ok (p, st2) →
    nextCalls fetch (n + 1) st = .ok (ps ++ [p], st2) := by
  induction n with
  | zero =>
    intro st st1 st2 ps p h1 h2
    simp only [nextCalls, Except.ok.injEq, Prod.mk.injEq] at h1
    obtain ⟨rfl, rfl⟩ := h1
    simp [nextCalls, h2]
  | succ n ih =>
    intro st st1 st2 ps p h1 h2
    simp only [nextCalls] at h1
    cases hg : getNextProxy fetch st with
    | error e =>
      rw [hg] at h1
      simp at h1
    | ok pr =>
      obtain ⟨q, st3⟩ := pr
      rw [hg] at h1
      dsimp only at h1
      cases hn : nextCalls fetch n st3 with
      | error e =>
        rw [hn] at h1
        simp at h1
      | ok pr2 =>
        obtain ⟨ps3, st4⟩ := pr2
        rw [hn] at h1
        simp at h1
        obtain ⟨rfl, rfl⟩ := h1
        have hmid := ih st3 st4 st2 ps3 p hn h2
        rw [nextCalls_cons fetch (n + 1) st q st3 hg, hmid]
        simp

/-- `pyIndex` finds the first occurrence after a clean prefix. -/
theorem pyIndex_append (cur : String) (l₁ l₂ : List String)
    (h : cur ∉ l₁) :
    pyIndex cur (l₁ ++ cur :: l₂) = some l₁.length := by
  induction l₁ with
  | nil => simp [pyIndex]
  | cons a t ih =>
    have ha : a ≠ cur := fun e => h (by simp [e])
    have ht : cur ∉ t := fun hm => h (List.mem_cons_of_mem a hm)
    simp [pyIndex, ha, ih ht]

/-- `getLast?` ignores a prepended prefix. -/
theorem getLast?_append_cons (l₁ : List String) (c : String) (l₂ : List String) :
    (l₁ ++ c :: l₂).getLast? = (c :: l₂).getLast? := by
  induction l₁ with
  | nil => rfl
  | cons a t ih =>
    have hcons : (a :: t) ++ c :: l₂ = a :: (t ++ c :: l₂) := rfl
    rw [hcons]
    obtain ⟨b, r, hbr⟩ : ∃ b r, t ++ c :: l₂ = b :: r := by
      cases hl : t ++ c :: l₂ with
      | nil => exact absurd hl (by simp)
      | cons b r => exact ⟨b, r, rfl⟩
    rw [hbr, List.getLast?_cons_cons, ← hbr, ih]

/-- `getLast?` of a non-empty list is some element of it. -/
theorem mem_of_getLast?_eq (l : List String) (a : String)
    (h : l.getLast? = some a) : a ∈ l := by
  induction l with
  | nil => simp at h
  | cons b t ih =>
    cases t with
    | nil =>
      have hba : b = a := by simpa using h
      simp [hba]
    | cons x r =>
      rw [List.getLast?_cons_cons] at h
      exact List.mem_cons_of_mem b (ih h)

/-- `getLast?` of a non-empty list is some value. -/
theorem getLast?_cons_isSome (p : String) (rest : List String) :
    ∃ v, (p :: rest).getLast? = some v := by
  induction rest generalizing p with
  | nil => exact ⟨p, rfl⟩
  | cons x r ih =>
    obtain ⟨v, hv⟩ := ih x
    exact ⟨v, by rw [List.getLast?_cons_cons]; exact hv⟩

/-- Walking the remaining suffix of a duplicate-free pool: with the
cursor on `cur`, the next `l₂.length` calls return exactly `l₂` and
leave the cursor on the last endpoint, with no refresh. -/
theorem nextCalls_walk (fetch : Option (List Row)) (l₂ : List String) :
    ∀ (l₁ : List String) (cur : String) (c : Nat),
    (l₁ ++ cur :: l₂).Nodup →
    nextCalls fetch l₂.length ⟨l₁ ++ cur :: l₂, some cur, c⟩ =
      .ok (l₂, ⟨l₁ ++ cur :: l₂, (cur :: l₂).getLast?, c⟩) := by
  induction l₂ with
  | nil =>
    intro l₁ cur c _
    rfl
  | cons p t ih =>
    intro l₁ cur c hnd
    have hsub : (cur :: p :: t).Nodup :=
      List.Nodup.sublist (List.sublist_append_right l₁ (cur :: p :: t)) hnd
    have hcur_not : cur ∉ (p :: t) := (List.nodup_cons.mp hsub).1
    have hcur_l₁ : cur ∉ l₁ := by
      have hdisj := (List.nodup_append.mp hnd).2.2
      exact fun hc => hdisj hc (List.mem_cons_self cur (p :: t))
    have hlast : (l₁ ++ cur :: p :: t).getLast? = (p :: t).getLast? := by
      rw [getLast?_append_cons, List.getLast?_cons_cons]
    obtain ⟨lastv, hlastv⟩ := getLast?_cons_isSome p t
    have hmem : lastv ∈ p :: t := mem_of_getLast?_eq _ _ hlastv
    have hne_cur : cur ≠ lastv := fun h => hcur_not (h ▸ hmem)
    have hidx : pyIndex cur (l₁ ++ cur :: p :: t) = some l₁.length :=
      pyIndex_append cur l₁ (p :: t) hcur_l₁
    have hget : (l₁ ++ cur :: p :: t)[l₁.length + 1]? = some p := by
      rw [List.getElem?_append_right (by omega)]
      have harith : l₁.length + 1 - l₁.length = 1 := by omega
      rw [harith]
      simp
    have hstep : getNextProxy fetch ⟨l₁ ++ cur :: p :: t, some cur, c⟩ =
        .ok (p, ⟨l₁ ++ cur :: p :: t, some p, c⟩) := by
      simp [getNextProxy, hlast, hlastv, hne_cur, hidx, hget]
    have hnd2 : ((l₁ ++ [cur]) ++ p :: t).Nodup := by
      rw [List.append_assoc, List.singleton_append]
      exact hnd
    have hwalk := ih (l₁ ++ [cur]) p c hnd2
    rw [List.append_assoc, List.singleton_append] at hwalk
    have hlen : (p :: t).length = t.length + 1 := rfl
    rw [hlen, nextCalls_cons fetch t.length _ p _ hstep, hwalk,
      List.getLast?_cons_cons]

/-- Counterexample to C8: a reachable pool state holding N = 2
endpoints (built by `__init__` from a source listing the same
endpoint twice) on which the 2nd `next()` call — not the 3rd —
already performs the implicit refresh, because rotation compares and
looks up endpoints by value. -/
theorem c8_counterexample :
    initProxies (some rowsDup) = .ok ⟨["a:1", "a:1"], none, 1⟩ ∧
    nextCalls (some rowsB) 2 ⟨["a:1", "a:1"], none, 1⟩ =
      .ok (["a:1", "b:2"], ⟨["b:2"], some ("b:2"), 2⟩) := by
  constructor <;> rfl

/-- Claim C8 as amended: for every pool of N distinct endpoints with
no cursor, and a refresh source yielding a non-empty list, the first
N `next()` calls return the N endpoints in order with no refresh
(the count is unchanged and the cursor ends on the last endpoint),
and the (N+1)th call performs exactly one implicit refresh and
returns the first endpoint of the refreshed sequence. -/
theorem c8_theorem (rows : List Row) (l : List String) (c : Nat)
    (hl : l ≠ []) (hnd : l.Nodup) (hne : buildProxyList rows ≠ []) :
    nextCalls (some rows) l.length ⟨l, none, c⟩ = .ok (l, ⟨l, l.getLast?, c⟩) ∧
    nextCalls (some rows) (l.length + 1) ⟨l, none, c⟩ =
      .ok (l ++ [(buildProxyList rows).headI],
        ⟨buildProxyList rows, some ((buildProxyList rows).headI), c + 1⟩) := by
  obtain ⟨p, rest, rfl⟩ : ∃ p rest, l = p :: rest := by
    cases l with
    | nil => exact absurd rfl hl
    | cons p rest => exact ⟨p, rest, rfl⟩
  have hfirst : getNextProxy (some rows) ⟨p :: rest, none, c⟩ =
      .ok (p, ⟨p :: rest, some p, c⟩) := rfl
  have hwalk := nextCalls_walk (some rows) rest [] p c (by simpa using hnd)
  simp only [List.nil_append] at hwalk
  have hN : nextCalls (some rows) (p :: rest).length ⟨p :: rest, none, c⟩ =
      .ok (p :: rest, ⟨p :: rest, (p :: rest).getLast?, c⟩) := by
    have hlen : (p :: rest).length = rest.length + 1 := rfl
    rw [hlen, nextCalls_cons (some rows) rest.length _ p _ hfirst, hwalk]
  refine ⟨hN, ?_⟩
  obtain ⟨b, bs, hb⟩ : ∃ b bs, buildProxyList rows = b :: bs := by
    cases hcase : buildProxyList rows with
    | nil => exact absurd hcase hne
    | cons b bs => exact ⟨b, bs, rfl⟩
  obtain ⟨lastv, hlastv⟩ := getLast?_cons_isSome p rest
  have hwrap : getNextProxy (some rows) ⟨p :: rest, (p :: rest).getLast?, c⟩ =
      .ok ((buildProxyList rows).headI,
        ⟨buildProxyList rows, some ((buildProxyList rows).headI), c + 1⟩) := by
    rw [hlastv]
    simp [getNextProxy, hlastv, getProxiesDefault, hb]
  exact nextCalls_snoc (some rows) (p :: rest).length _ _ _ _ _ hN hwrap

/-- Witness for the amended C8 at a concrete 2-endpoint pool. -/
theorem c8_witness :
    nextCalls (some rowsB) ((["a:1", "c:3"] : List String).length)
      ⟨["a:1", "c:3"], none, 0⟩ =
      .ok (["a:1", "c:3"],
        ⟨["a:1", "c:3"], (["a:1", "c:3"] : List String).getLast?, 0⟩) ∧
    nextCalls (some rowsB) ((["a:1", "c:3"] : List String).length + 1)
      ⟨["a:1", "c:3"], none, 0⟩ =
      .ok (["a:1", "c:3"] ++ [(buildProxyList rowsB).headI],
        ⟨buildProxyList rowsB, some ((buildProxyList rowsB).headI), 0 + 1⟩) :=
  c8_theorem rowsB (["a:1", "c:3"]) 0 (by decide) (by decide) (by decide)

end GNW
